import Mathlib

/-!
Verification development for the TeamManagement repository.

Shallow embedding of:
- the daily performance report service (generateDailyReport,
  sendDailyReportToAllUsers, formatReportMessage) from the report service file;
- the SQL function send_daily_performance_report from the migration
  20250118000001_create_daily_performance_report_function.sql;
- the webhook service (sendTaskWebhook) and webhook settings service
  (getWebhookSetting);
- the realtime daily-task handlers of the useDailyTasks hook.

Timestamps are modelled as natural numbers (milliseconds); the clock values
(day start, day end, now) and the remote query results are parameters of the
embedded functions, since the source reads them from the environment.
-/

/-- A row of the tasks table, restricted to the columns the report reads. -/
structure TaskRow where
  user_id : String
  status : String
  due_date : Nat
  updated_at : Nat
deriving DecidableEq, Repr

/-- A row of the deleted_tasks table, restricted to the columns the report reads. -/
structure DeletedRow where
  task_type : String
  deleted_at : Nat
deriving DecidableEq, Repr

/-- One entry of the per-user breakdown built by generateDailyReport. -/
structure UserStats where
  userId : String
  userName : String
  userEmail : String
  totalTasks : Nat
  completed : Nat
  pending : Nat
  blocked : Nat
deriving DecidableEq, Repr

/-- The DailyPerformanceReport interface of the report service. -/
structure DailyPerformanceReport where
  date : String
  totalTasks : Nat
  pendingTasks : Nat
  completedTasks : Nat
  blockedTasks : Nat
  deletedTasks : Nat
  byUser : List UserStats
deriving DecidableEq, Repr

/-- The gte/lte range condition used by the queries of generateDailyReport. -/
def inWindow (lo hi x : Nat) : Bool :=
  decide (lo ≤ x) && decide (x ≤ hi)

/-- One iteration of the per-user tally loop of generateDailyReport: totalTasks
is always incremented; completed when the status is completed; otherwise
pending, and blocked as well when the due date has passed. -/
def stepStats (now : Nat) (t : TaskRow) (s : UserStats) : UserStats :=
  if t.status == "completed" then
    { s with totalTasks := s.totalTasks + 1, completed := s.completed + 1 }
  else if t.due_date < now then
    { s with totalTasks := s.totalTasks + 1, pending := s.pending + 1,
             blocked := s.blocked + 1 }
  else
    { s with totalTasks := s.totalTasks + 1, pending := s.pending + 1 }

/-- The fresh zeroed entry generateDailyReport creates on the first task of a
user, with the name and email looked up in the user map (Unknown and the empty
string when absent). -/
def freshStats (userMap : String → Option (String × String)) (u : String) : UserStats :=
  let d := (userMap u).getD ("Unknown", "")
  { userId := u, userName := d.1, userEmail := d.2,
    totalTasks := 0, completed := 0, pending := 0, blocked := 0 }

/-- The key test of the userBreakdown map: does an entry belong to user u. -/
def statKey (u : String) (s : UserStats) : Bool :=
  s.userId == u

/-- One step of the userBreakdown construction: the JS Map updates the entry in
place when the user already has one (insertion order is kept) and appends a
fresh entry at the end otherwise. -/
def insertTask (now : Nat) (userMap : String → Option (String × String))
    (acc : List UserStats) (t : TaskRow) : List UserStats :=
  if acc.any (statKey t.user_id) then
    acc.map (fun s => if statKey t.user_id s then stepStats now t s else s)
  else
    acc ++ [stepStats now t (freshStats userMap t.user_id)]

/-- The userBreakdown map of generateDailyReport, as the list of its values in
insertion order. -/
def buildBreakdown (now : Nat) (userMap : String → Option (String × String))
    (tasks : List TaskRow) : List UserStats :=
  tasks.foldl (insertTask now userMap) []

/-- Lookup of the entry of user u in a breakdown list (first match). -/
def lookupStats (u : String) (l : List UserStats) : Option UserStats :=
  l.find? (statKey u)

/-- The tally of one user over a task list: the fresh entry stepped by each of
the tasks of that user, in order. -/
def userAgg (now : Nat) (userMap : String → Option (String × String))
    (u : String) (ts : List TaskRow) : UserStats :=
  (ts.filter (fun t => t.user_id == u)).foldl (fun a t => stepStats now t a)
    (freshStats userMap u)

/-- Sum of one numeric column over a breakdown list. -/
def sumBy (F : UserStats → Nat) (l : List UserStats) : Nat :=
  (l.map F).sum

/-- generateDailyReport of the daily performance report service.  The two
range queries are modelled as filters over the full tables; dateStr is the
ISO date string of today, todayStart and todayEnd the bounds the source
computes (00:00:00.000 and 23:59:59.999 of the current day, in ms), now the
current instant, and userMap the combined result of the members, admins and
project_managers lookups. -/
def generateDailyReport (dateStr : String) (todayStart todayEnd now : Nat)
    (tasksTable : List TaskRow) (deletedTable : List DeletedRow)
    (userMap : String → Option (String × String)) : DailyPerformanceReport :=
  let tasks := tasksTable.filter (fun t => inWindow todayStart todayEnd t.updated_at)
  let deletedTasks := deletedTable.filter
    (fun d => d.task_type == "regular" && inWindow todayStart todayEnd d.deleted_at)
  let totalTasks := tasks.length
  let completedTasks := (tasks.filter (fun t => t.status == "completed")).length
  let pendingTasks := (tasks.filter (fun t => t.status != "completed")).length
  let blockedTasks := (tasks.filter
    (fun t => t.status != "completed" && decide (t.due_date < now))).length
  { date := dateStr
    totalTasks := totalTasks
    pendingTasks := pendingTasks
    completedTasks := completedTasks
    blockedTasks := blockedTasks
    deletedTasks := deletedTasks.length
    byUser := buildBreakdown now userMap tasks }

/-- A row of the members, admins or project_managers tables. -/
structure UserRow where
  id : String
  name : String
  email : String
  is_active : Bool
deriving DecidableEq, Repr

/-- A row of the notifications table as inserted by the report fan-out.  The
source field named type is called ntype here because type is a Lean keyword. -/
structure NotificationRow where
  user_id : String
  title : String
  message : String
  ntype : String
  is_read : Bool
deriving DecidableEq, Repr

/-- The recipient list of sendDailyReportToAllUsers: active members, then
active project managers, then active admins (the three is_active filters are
the eq conditions of the queries). -/
def activeUsers (members pms admins : List UserRow) : List UserRow :=
  members.filter (fun u => u.is_active) ++
  pms.filter (fun u => u.is_active) ++
  admins.filter (fun u => u.is_active)

/-- The notification row sendDailyReportToAllUsers builds for one recipient. -/
def mkNotification (date msg : String) (u : UserRow) : NotificationRow :=
  { user_id := u.id
    title := "📊 Daily Performance Report - " ++ date
    message := msg
    ntype := "report"
    is_read := false }

/-- The batching loop of sendDailyReportToAllUsers: slices of at most 100
consecutive notifications, in order. -/
def batches100 (l : List NotificationRow) : List (List NotificationRow) :=
  if l = [] then [] else l.take 100 :: batches100 (l.drop 100)
termination_by l.length
decreasing_by
  rename_i h
  have hl : 0 < l.length := List.length_pos.mpr h
  simp [List.length_drop]
  omega

/-- The ordering the JS comparator (a, b) => b.completed - a.completed sorts
by: descending number of completed tasks. -/
def completedGe (a b : UserStats) : Prop :=
  b.completed ≤ a.completed

instance : DecidableRel completedGe := fun a b => Nat.decLe b.completed a.completed

instance : IsTotal UserStats completedGe := ⟨fun a b => Nat.le_total b.completed a.completed⟩

instance : IsTrans UserStats completedGe := ⟨fun _ _ _ h h2 => Nat.le_trans h2 h⟩

/-- The line formatReportMessage pushes for the performer at 0-based index i. -/
def perfLine (i : Nat) (u : UserStats) : String :=
  toString (i + 1) ++ ". " ++ u.userName ++ ": " ++ toString u.completed ++ "/" ++
    toString u.totalTasks ++ " completed"

/-- The fixed header lines of formatReportMessage (date line, blank, heading
and the five overall metric lines, then a blank). -/
def headerLines (r : DailyPerformanceReport) : List String :=
  [ "📅 Date: " ++ r.date,
    "",
    "📈 Overall Performance:",
    "• Total Tasks Updated: " ++ toString r.totalTasks,
    "• ✅ Completed: " ++ toString r.completedTasks,
    "• ⏳ Pending: " ++ toString r.pendingTasks,
    "• 🚫 Blocked: " ++ toString r.blockedTasks,
    "• 🗑️ Deleted: " ++ toString r.deletedTasks,
    "" ]

/-- The line list of formatReportMessage.  The JS stable sort with comparator
(a, b) => b.completed - a.completed is modelled by the stable insertion sort
on the descending-completed ordering. -/
def formatReportLines (r : DailyPerformanceReport) : List String :=
  if r.byUser.length > 0 then
    let sortedUsers := (r.byUser.insertionSort completedGe).take 5
    headerLines r ++ ("🏆 Top Performers Today:" ::
      sortedUsers.enum.map (fun p => perfLine p.1 p.2))
  else
    headerLines r

/-- formatReportMessage of the report service: the lines joined by newlines. -/
def formatReportMessage (r : DailyPerformanceReport) : String :=
  String.intercalate "\n" (formatReportLines r)

/-- sendDailyReportToAllUsers, modelled as the sequence of insert batches it
issues: one notification per active member, project manager and admin,
carrying the formatted report, inserted in slices of at most 100. -/
def sendDailyReportToAllUsers (report : DailyPerformanceReport)
    (members pms admins : List UserRow) : List (List NotificationRow) :=
  let allUsers := activeUsers members pms admins
  let reportMessage := formatReportMessage report
  let notifications := allUsers.map (mkNotification report.date reportMessage)
  batches100 notifications

/-! ## The SQL function send_daily_performance_report -/

/-- The five counters of the SQL function. -/
structure SqlMetrics where
  total : Nat
  completed : Nat
  pending : Nat
  blocked : Nat
  deleted : Nat
deriving DecidableEq, Repr

/-- The five SELECT COUNT aggregates of send_daily_performance_report.  The
window runs from date_trunc of the day to one second before the next day
(dayStart + 86400000 ms - 1000 ms), both bounds inclusive. -/
def sqlReportMetrics (dayStart now : Nat) (tasksTable : List TaskRow)
    (deletedTable : List DeletedRow) : SqlMetrics :=
  let todayEnd := dayStart + 86400000 - 1000
  { total := tasksTable.countP (fun t => inWindow dayStart todayEnd t.updated_at)
    completed := tasksTable.countP
      (fun t => inWindow dayStart todayEnd t.updated_at && t.status == "completed")
    pending := tasksTable.countP
      (fun t => inWindow dayStart todayEnd t.updated_at && t.status != "completed")
    blocked := tasksTable.countP
      (fun t => inWindow dayStart todayEnd t.updated_at && t.status != "completed" &&
        decide (t.due_date < now))
    deleted := deletedTable.countP
      (fun d => inWindow dayStart todayEnd d.deleted_at && d.task_type == "regular") }

/-- The report message the SQL function formats. -/
def sqlReportMessage (reportDate : String) (m : SqlMetrics) : String :=
  "📅 Date: " ++ reportDate ++ "\n\n📈 Overall Performance:\n• Total Tasks Updated: " ++
    toString m.total ++ "\n• ✅ Completed: " ++ toString m.completed ++
    "\n• ⏳ Pending: " ++ toString m.pending ++ "\n• 🚫 Blocked: " ++
    toString m.blocked ++ "\n• 🗑️ Deleted: " ++ toString m.deleted ++
    "\n\nCheck the dashboard for detailed breakdown by team member."

/-- The webhook_settings row the SQL function reads (columns url and
is_enabled); both are nullable, and the whole row may be absent. -/
structure SqlWebhookSettingsRow where
  url : Option String
  is_enabled : Option Bool
deriving DecidableEq, Repr

/-- The default webhook URL hard-coded in the SQL function. -/
def sqlDefaultUrl : String :=
  "https://n8nautomation.site/webhook/024b9c20-7772-46f1-89cf-00ed7bf00c43"

/-- An HTTP response as the webhook callers observe it. -/
structure HttpResponse where
  status : Nat
  ok : Bool
deriving DecidableEq, Repr

/-- The outcome of an HTTP POST: a response, or a thrown exception. -/
inductive FetchResult where
  | success (r : HttpResponse)
  | failure
deriving DecidableEq, Repr

/-- The observable outcome of one run of send_daily_performance_report: the
notification rows inserted, whether and where the webhook POST was attempted,
and whether the function completed normally. -/
structure SqlSendResult where
  notifications : List NotificationRow
  webhookAttempted : Bool
  webhookUrlUsed : Option String
  completedNormally : Bool
deriving DecidableEq, Repr

/-- send_daily_performance_report of the migration.  The http argument stands
for the http() call of the pg extension; its failure is caught by the
EXCEPTION block, so it never affects the rest of the run. -/
def send_daily_performance_report (reportDate : String) (dayStart now : Nat)
    (tasksTable : List TaskRow) (deletedTable : List DeletedRow)
    (members pms admins : List UserRow)
    (settingsRow : Option SqlWebhookSettingsRow)
    (http : String → FetchResult) : SqlSendResult :=
  let m := sqlReportMetrics dayStart now tasksTable deletedTable
  let reportMessage := sqlReportMessage reportDate m
  let mkRow := fun (u : UserRow) =>
    { user_id := u.id
      title := "📊 Daily Performance Report - " ++ reportDate
      message := reportMessage
      ntype := "report"
      is_read := false : NotificationRow }
  let notifications :=
    (members.filter (fun u => u.is_active)).map mkRow ++
    (pms.filter (fun u => u.is_active)).map mkRow ++
    (admins.filter (fun u => u.is_active)).map mkRow
  let rawUrl := match settingsRow with
    | none => none
    | some r => r.url
  let rawEnabled := match settingsRow with
    | none => none
    | some r => r.is_enabled
  let subst := rawUrl = none ∨ rawUrl = some ""
  let webhookUrl := if subst then sqlDefaultUrl else rawUrl.getD ""
  let webhookEnabled := if subst then some true else rawEnabled
  if webhookEnabled = some true then
    match http webhookUrl with
    | FetchResult.success _ =>
      { notifications := notifications, webhookAttempted := true,
        webhookUrlUsed := some webhookUrl, completedNormally := true }
    | FetchResult.failure =>
      -- the EXCEPTION WHEN OTHERS block catches the error and only logs it
      { notifications := notifications, webhookAttempted := true,
        webhookUrlUsed := some webhookUrl, completedNormally := true }
  else
    { notifications := notifications, webhookAttempted := false,
      webhookUrlUsed := none, completedNormally := true }

/-! ## The webhook service and webhook settings service -/

/-- The setting_value object of a webhook setting. -/
structure WebhookValue where
  enabled : Bool
  url : String
deriving DecidableEq, Repr

/-- The WebhookSetting interface of the webhook settings service. -/
structure WebhookSetting where
  id : String
  setting_key : String
  setting_value : WebhookValue
  descr : String
  created_at : String
  updated_at : String
deriving DecidableEq, Repr

/-- The TS default webhook URL hard-coded in the webhook settings service. -/
def tsDefaultUrl : String :=
  "https://n8nautomation.site/webhook/9f329008-2786-495e-9efd-61975bb46186"

/-- The default enabled setting the webhook settings service falls back to. -/
def defaultWebhookSetting (nowIso : String) : WebhookSetting :=
  { id := ""
    setting_key := "task_webhook_enabled"
    setting_value := { enabled := true, url := tsDefaultUrl }
    descr := "Task webhook notifications"
    created_at := nowIso
    updated_at := nowIso }

/-- What the webhook_settings query of getWebhookSetting can produce: a row,
no row (maybeSingle returned null), a supabase error, or a thrown exception. -/
inductive SettingsQueryResult where
  | ok (data : Option WebhookSetting)
  | err
  | exn
deriving DecidableEq, Repr

/-- getWebhookSetting of the webhook settings service: the row when the query
returns one, and the default enabled setting on error, on absence, and on a
thrown exception. -/
def getWebhookSetting (q : SettingsQueryResult) (nowIso : String) :
    Option WebhookSetting :=
  match q with
  | SettingsQueryResult.ok (some data) => some data
  | SettingsQueryResult.ok none => some (defaultWebhookSetting nowIso)
  | SettingsQueryResult.err => some (defaultWebhookSetting nowIso)
  | SettingsQueryResult.exn => some (defaultWebhookSetting nowIso)

/-- sendTaskWebhook of the webhook service, parameterized by the setting the
settings service returned and by the fetch effect.  The outer try/catch maps
any thrown exception to false; a missing or disabled setting and an empty URL
return false before any POST; otherwise the result is the ok flag of the
response. -/
def sendTaskWebhook (setting : Option WebhookSetting)
    (fetch : String → FetchResult) : Bool :=
  match setting with
  | none => false
  | some ws =>
    if !ws.setting_value.enabled then false
    else if ws.setting_value.url = "" then false
    else
      match fetch ws.setting_value.url with
      | FetchResult.success resp => resp.ok
      | FetchResult.failure => false

/-! ## The realtime daily-task handlers of the useDailyTasks hook -/

/-- A row of the daily_tasks table, restricted to the columns the hook
filters on. -/
structure DailyTaskRow where
  id : String
  task_name : String
  descriptionText : Option String
  status : String
  priority : String
  user_id : String
  project_id : Option String
  task_date : String
deriving DecidableEq, Repr

/-- The DailyTaskFilters object of the hook; a JS falsy filter value (absence
or the empty string) leaves the filter unset. -/
structure DailyTaskFilters where
  status : Option String := none
  member : Option String := none
  date : Option String := none
  priority : Option String := none
  project : Option String := none
  search : Option String := none
deriving DecidableEq, Repr

/-- The authenticated user of the hook. -/
structure AuthUser where
  id : String
  role : String
deriving DecidableEq, Repr

/-- Prefix test on character lists, used to model substring containment. -/
def charsMatchAt : List Char → List Char → Bool
  | [], _ => true
  | _ :: _, [] => false
  | p :: ps, h :: hs => p == h && charsMatchAt ps hs

/-- Substring containment on character lists. -/
def charsContain (hay pat : List Char) : Bool :=
  match hay with
  | [] => pat.isEmpty
  | _ :: t => charsMatchAt pat hay || charsContain t pat

/-- Case-insensitive substring containment: both the DB ilike %s% condition of
fetchTasks and the toLowerCase().includes check of the realtime handlers. -/
def strContains (hay pat : String) : Bool :=
  charsContain hay.toLower.data pat.toLower.data

/-- JS truthiness of an optional string filter value. -/
def truthy : Option String → Bool
  | none => false
  | some s => !(s == "")

/-- An eq filter: skipped when the filter value is falsy. -/
def optEq (o : Option String) (v : String) : Bool :=
  match o with
  | none => true
  | some s => if s == "" then true else v == s

/-- An eq filter against a nullable column (the project_id filter). -/
def optEqSome (o : Option String) (v : Option String) : Bool :=
  match o with
  | none => true
  | some s => if s == "" then true else v == some s

/-- The search filter: the task name or the (non-null) description contains
the search string, case-insensitively. -/
def optSearch (o : Option String) (t : DailyTaskRow) : Bool :=
  match o with
  | none => true
  | some s =>
    if s == "" then true
    else
      strContains t.task_name s ||
        (match t.descriptionText with
         | some d => strContains d s
         | none => false)

/-- The predicate the fetchTasks query of useDailyTasks applies: every set
filter (status, member, date, priority, project, search), and for a user who
is neither admin nor project manager only their own tasks. -/
def fetchPred (f : DailyTaskFilters) (user : AuthUser) (t : DailyTaskRow) : Bool :=
  optEq f.status t.status &&
  optEq f.member t.user_id &&
  optEq f.date t.task_date &&
  optEq f.priority t.priority &&
  optEqSome f.project t.project_id &&
  optSearch f.search t &&
  (user.role == "admin" || user.role == "project_manager" || t.user_id == user.id)

/-- The shouldInclude check of the realtime INSERT and UPDATE handlers: the
status, member, date, priority and search filters (the project filter is not
re-checked), and for any non-admin only their own tasks. -/
def handlerPred (f : DailyTaskFilters) (user : AuthUser) (t : DailyTaskRow) : Bool :=
  optEq f.status t.status &&
  optEq f.member t.user_id &&
  optEq f.date t.task_date &&
  optEq f.priority t.priority &&
  optSearch f.search t &&
  (user.role == "admin" || t.user_id == user.id)

/-- The realtime INSERT handler on the local task list: drop the event when
the task is already present, otherwise prepend it when shouldInclude holds. -/
def insertHandlerDT (f : DailyTaskFilters) (user : AuthUser)
    (prev : List DailyTaskRow) (newTask : DailyTaskRow) : List DailyTaskRow :=
  if prev.any (fun t => t.id == newTask.id) then prev
  else if handlerPred f user newTask then newTask :: prev else prev

/-- The realtime UPDATE handler: leave the list unchanged when the task is not
present; replace it in place when shouldInclude holds, remove it otherwise. -/
def updateHandlerDT (f : DailyTaskFilters) (user : AuthUser)
    (prev : List DailyTaskRow) (updatedTask : DailyTaskRow) : List DailyTaskRow :=
  match prev.findIdx? (fun t => t.id == updatedTask.id) with
  | none => prev
  | some i =>
    if handlerPred f user updatedTask then prev.set i updatedTask
    else prev.filter (fun t => !(t.id == updatedTask.id))

/-- The realtime DELETE handler: remove the task with the deleted id. -/
def deleteHandlerDT (prev : List DailyTaskRow) (deletedId : String) :
    List DailyTaskRow :=
  prev.filter (fun t => !(t.id == deletedId))

/-- The invariant the realtime handlers actually preserve: the fetch predicate
with the project filter dropped.  It is weaker than fetchPred (which also
checks the project filter) and is implied by handlerPred (whose role check is
stricter). -/
def realtimePreservedPred (f : DailyTaskFilters) (user : AuthUser)
    (t : DailyTaskRow) : Bool :=
  optEq f.status t.status &&
  optEq f.member t.user_id &&
  optEq f.date t.task_date &&
  optEq f.priority t.priority &&
  optSearch f.search t &&
  (user.role == "admin" || user.role == "project_manager" || t.user_id == user.id)

/-! ## Concrete fixtures for counterexamples and witnesses -/

/-- A concrete report used to instantiate witnesses. -/
def exReport : DailyPerformanceReport :=
  { date := "2025-01-18", totalTasks := 3, pendingTasks := 2, completedTasks := 1,
    blockedTasks := 1, deletedTasks := 0,
    byUser := [
      { userId := "u1", userName := "Alice", userEmail := "alice@x.com",
        totalTasks := 2, completed := 1, pending := 1, blocked := 1 },
      { userId := "u2", userName := "Bob", userEmail := "bob@x.com",
        totalTasks := 1, completed := 0, pending := 1, blocked := 0 }] }

/-- Concrete member rows used to instantiate witnesses. -/
def exMembers : List UserRow :=
  [{ id := "m1", name := "Alice", email := "alice@x.com", is_active := true },
   { id := "m2", name := "Bob", email := "bob@x.com", is_active := false }]

/-- Concrete project manager rows used to instantiate witnesses. -/
def exPms : List UserRow :=
  [{ id := "p1", name := "Carol", email := "carol@x.com", is_active := true }]

/-- Concrete admin rows used to instantiate witnesses. -/
def exAdmins : List UserRow :=
  [{ id := "a1", name := "Dan", email := "dan@x.com", is_active := true }]

/-- A concrete task row updated in the last 999 ms of the day. -/
def exLateTask : TaskRow :=
  { user_id := "u", status := "pending", due_date := 0, updated_at := 86399500 }

/-- Concrete filters with only the project filter set. -/
def exFilters : DailyTaskFilters :=
  { project := some "p1" }

/-- A concrete admin user of the hook. -/
def exAuthAdmin : AuthUser :=
  { id := "u0", role := "admin" }

/-- A concrete daily task whose project does not match the project filter. -/
def exOtherProjectTask : DailyTaskRow :=
  { id := "t1", task_name := "write docs", descriptionText := none,
    status := "pending", priority := "medium", user_id := "u1",
    project_id := some "p2", task_date := "2025-01-18" }

/-! ## Helper lemmas -/

theorem countP_not_add (p : α → Bool) (l : List α) :
    l.countP p + l.countP (fun a => !p a) = l.length := by
  induction l with
  | nil => simp
  | cons a l ih =>
    cases h : p a
    · simp [List.countP_cons, h]
      omega
    · simp [List.countP_cons, h]
      omega

theorem sum_map_ite_one (p : α → Bool) (l : List α) :
    (l.map (fun a => if p a then 1 else 0)).sum = l.countP p := by
  induction l with
  | nil => simp
  | cons a l ih =>
    cases h : p a
    · simp [List.countP_cons, h, ih]
    · simp [List.countP_cons, h, ih]
      omega

theorem batches100_flatten (l : List NotificationRow) :
    (batches100 l).flatten = l := by
  rw [batches100]
  split
  · simp [*]
  · rw [List.flatten_cons, batches100_flatten (l.drop 100), List.take_append_drop]
termination_by l.length
decreasing_by
  have hl : 0 < l.length := List.length_pos.mpr (by assumption)
  simp [List.length_drop]
  omega

theorem batches100_len_le (l : List NotificationRow) :
    ∀ b ∈ batches100 l, b.length ≤ 100 := by
  rw [batches100]
  split
  · simp
  · intro b hb
    rcases List.mem_cons.mp hb with h | h
    · subst h
      simp [List.length_take]
    · exact batches100_len_le (l.drop 100) b h
termination_by l.length
decreasing_by
  have hl : 0 < l.length := List.length_pos.mpr (by assumption)
  simp [List.length_drop]
  omega

theorem stepStats_userId (now : Nat) (t : TaskRow) (s : UserStats) :
    (stepStats now t s).userId = s.userId := by
  unfold stepStats
  split
  · rfl
  · split
    · rfl
    · rfl

theorem statKey_stepStats (u : String) (now : Nat) (t : TaskRow) (s : UserStats) :
    statKey u (stepStats now t s) = statKey u s := by
  simp [statKey, stepStats_userId]

theorem freshStats_userId (um : String → Option (String × String)) (u : String) :
    (freshStats um u).userId = u := by
  simp [freshStats]

theorem lookupStats_insertTask (now : Nat) (um : String → Option (String × String))
    (acc : List UserStats) (t : TaskRow) (u : String) :
    lookupStats u (insertTask now um acc t) =
      if t.user_id == u then
        some (stepStats now t ((lookupStats u acc).getD (freshStats um t.user_id)))
      else lookupStats u acc := by
  unfold insertTask lookupStats
  by_cases hany : acc.any (statKey t.user_id)
  · simp only [hany, if_true]
    have hpres : (statKey u) ∘
        (fun s => if statKey t.user_id s then stepStats now t s else s) = statKey u := by
      funext s
      by_cases hk : statKey t.user_id s
      · simp [hk, statKey_stepStats]
      · simp [hk]
    rw [List.find?_map, hpres]
    by_cases htu : t.user_id == u
    · have htu' : t.user_id = u := by simpa using htu
      subst htu'
      rcases List.any_eq_true.mp hany with ⟨s0, hs0mem, hs0⟩
      rcases List.find?_isSome.mpr ⟨s0, hs0mem, hs0⟩ |> Option.isSome_iff_exists.mp
        with ⟨sf, hsf⟩
      rw [hsf]
      have hkey : statKey t.user_id sf = true := List.find?_some hsf
      simp [htu, hkey, hsf]
    · rw [if_neg (by simpa using htu)]
      cases hf : acc.find? (statKey u) with
      | none => rfl
      | some sf =>
        have hkey : statKey u sf = true := List.find?_some hf
        have hne : statKey t.user_id sf = false := by
          have : sf.userId = u := by simpa [statKey] using hkey
          simp [statKey, this]
          intro hc
          exact absurd (by simpa using hc ▸ rfl : t.user_id == u) (by simpa using htu)
        simp [hne]
  · simp only [hany, if_false, Bool.false_eq_true]
    rw [List.find?_append]
    by_cases htu : t.user_id == u
    · have htu' : t.user_id = u := by simpa using htu
      have hnone : acc.find? (statKey u) = none := by
        rw [List.find?_eq_none]
        intro x hx hkx
        apply hany
        apply List.any_eq_true.mpr
        exact ⟨x, hx, by simpa [statKey, htu'] using hkx⟩
      have hklast : statKey u (stepStats now t (freshStats um t.user_id)) = true := by
        simp [statKey, stepStats_userId, freshStats_userId, htu']
      simp [hnone, htu, List.find?, hklast]
    · have hklast : statKey u (stepStats now t (freshStats um t.user_id)) = false := by
        simp [statKey, stepStats_userId, freshStats_userId]
        intro hc
        exact absurd (by simpa using hc ▸ rfl : t.user_id == u) (by simpa using htu)
      simp [htu, List.find?, hklast]

theorem lookupStats_foldl (now : Nat) (um : String → Option (String × String)) :
    ∀ (ts : List TaskRow) (acc : List UserStats) (u : String),
      lookupStats u (ts.foldl (insertTask now um) acc) =
        match lookupStats u acc with
        | some s => some ((ts.filter (fun t => t.user_id == u)).foldl
            (fun a t => stepStats now t a) s)
        | none =>
          if ts.any (fun t => t.user_id == u) then some (userAgg now um u ts)
          else none := by
  intro ts
  induction ts with
  | nil =>
    intro acc u
    cases h : lookupStats u acc <;> simp [h]
  | cons t ts ih =>
    intro acc u
    rw [List.foldl_cons, ih, lookupStats_insertTask]
    by_cases htu : t.user_id == u
    · have htu' : t.user_id = u := by simpa using htu
      subst htu'
      cases h : lookupStats t.user_id acc with
      | some s =>
        simp only [htu, if_true, h, Option.getD_some]
        rw [List.filter_cons_of_pos (by simp), List.foldl_cons]
      | none =>
        simp only [htu, if_true, h, Option.getD_none]
        have hany : ((t :: ts).any (fun x => x.user_id == t.user_id)) = true := by
          simp [List.any_cons]
        simp only [hany, if_true]
        unfold userAgg
        rw [List.filter_cons_of_pos (by simp), List.foldl_cons]
    · have hfil : (List.filter (fun x => x.user_id == u) (t :: ts)) =
        List.filter (fun x => x.user_id == u) ts := by
        rw [List.filter_cons_of_neg (by simpa using htu)]
      have hgg : userAgg now um u (t :: ts) = userAgg now um u ts := by
        unfold userAgg
        rw [hfil]
      cases h : lookupStats u acc with
      | some s =>
        simp only [htu, if_false, h, hfil]
        simp [htu]
      | none =>
        simp only [h, List.any_cons, hgg]
        simp [htu]

theorem countP_statKey_insertTask (now : Nat) (um : String → Option (String × String))
    (acc : List UserStats) (t : TaskRow)
    (hI : ∀ v, acc.countP (statKey v) = if acc.any (statKey v) then 1 else 0) :
    ∀ v, (insertTask now um acc t).countP (statKey v) =
      if (insertTask now um acc t).any (statKey v) then 1 else 0 := by
  intro v
  unfold insertTask
  by_cases hany : acc.any (statKey t.user_id)
  · simp only [hany, if_true]
    have hpres : (statKey v) ∘
        (fun s => if statKey t.user_id s then stepStats now t s else s) = statKey v := by
      funext s
      by_cases hk : statKey t.user_id s
      · simp [hk, statKey_stepStats]
      · simp [hk]
    rw [List.countP_map, List.any_map, hpres, hI v]
  · simp only [hany, if_false, Bool.false_eq_true]
    rw [List.countP_append, List.any_append, hI v]
    have hlast : statKey v (stepStats now t (freshStats um t.user_id)) =
        (t.user_id == v) := by
      simp [statKey, stepStats_userId, freshStats_userId]
    by_cases htv : t.user_id == v
    · have hv : ¬ acc.any (statKey v) = true := by
        intro hc
        apply hany
        have htv' : t.user_id = v := by simpa using htv
        simpa [htv'] using hc
      simp [hv, List.countP_cons, hlast, htv]
    · simp only [List.countP_cons, List.countP_nil, hlast]
      by_cases hv : acc.any (statKey v) = true
      · simp [hv, htv, List.any_cons, hlast]
      · simp [hv, htv, List.any_cons, hlast]

theorem countP_statKey_foldl (now : Nat) (um : String → Option (String × String)) :
    ∀ (ts : List TaskRow) (acc : List UserStats),
      (∀ v, acc.countP (statKey v) = if acc.any (statKey v) then 1 else 0) →
      ∀ v, (ts.foldl (insertTask now um) acc).countP (statKey v) =
        if (ts.foldl (insertTask now um) acc).any (statKey v) then 1 else 0 := by
  intro ts
  induction ts with
  | nil => intro acc hI v; exact hI v
  | cons t ts ih =>
    intro acc hI v
    rw [List.foldl_cons]
    exact ih (insertTask now um acc t) (countP_statKey_insertTask now um acc t hI) v

theorem countP_statKey_buildBreakdown (now : Nat)
    (um : String → Option (String × String)) (ts : List TaskRow) (v : String) :
    (buildBreakdown now um ts).countP (statKey v) =
      if (buildBreakdown now um ts).any (statKey v) then 1 else 0 := by
  exact countP_statKey_foldl now um ts [] (fun v => by simp) v

theorem any_buildBreakdown (now : Nat) (um : String → Option (String × String))
    (ts : List TaskRow) (u : String) :
    (buildBreakdown now um ts).any (statKey u) = ts.any (fun t => t.user_id == u) := by
  have h := lookupStats_foldl now um ts [] u
  simp only [lookupStats, List.find?_nil] at h
  have hiff : ((buildBreakdown now um ts).any (statKey u) = true) ↔
      (ts.any (fun t => t.user_id == u) = true) := by
    constructor
    · intro hc
      rcases List.any_eq_true.mp hc with ⟨s, hmem, hkey⟩
      by_contra hn
      rw [if_neg (by simpa using hn)] at h
      rw [List.find?_eq_none] at h
      exact absurd hkey (by simpa using h s hmem)
    · intro hc
      rw [if_pos hc] at h
      have : lookupStats u (buildBreakdown now um ts) = some (userAgg now um u ts) := by
        simpa [buildBreakdown] using h
      rcases List.mem_of_find?_eq_some this with hmem
      exact List.any_eq_true.mpr ⟨userAgg now um u ts, hmem, List.find?_some this⟩
  by_cases hb : (buildBreakdown now um ts).any (statKey u) = true
  · rw [hb, (hiff.mp hb)]
  · have h2 : ¬ ts.any (fun t => t.user_id == u) = true := fun hc => hb (hiff.mpr hc)
    simp only [Bool.not_eq_true] at hb h2
    rw [hb, h2]

theorem find?_eq_of_mem_of_countP_le_one {p : UserStats → Bool} :
    ∀ (l : List UserStats) (s : UserStats), s ∈ l → p s = true →
      l.countP p ≤ 1 → l.find? p = some s := by
  intro l
  induction l with
  | nil => intro s hmem; exact absurd hmem (List.not_mem_nil s)
  | cons a l ih =>
    intro s hmem hp hcount
    cases ha : p a with
    | true =>
      rw [List.find?_cons_of_pos _ ha]
      rcases List.mem_cons.mp hmem with h | h
      · rw [h]
      · exfalso
        have h1 : 1 ≤ l.countP p := by
          calc 1 = [s].countP p := by simp [hp]
          _ ≤ l.countP p := by
            apply List.Sublist.countP_le
            simpa using h
        rw [List.countP_cons_of_pos _ _ ha] at hcount
        omega
    | false =>
      rw [List.find?_cons_of_neg _ (by simp [ha])]
      rcases List.mem_cons.mp hmem with h | h
      · exact absurd (h ▸ hp) (by simp [ha])
      · exact ih s h hp (by rw [List.countP_cons_of_neg _ _ (by simp [ha])] at hcount; exact hcount)

theorem mem_buildBreakdown_eq_userAgg (now : Nat)
    (um : String → Option (String × String)) (ts : List TaskRow) (s : UserStats)
    (hmem : s ∈ buildBreakdown now um ts) :
    s = userAgg now um s.userId ts ∧ ts.any (fun t => t.user_id == s.userId) = true := by
  have hkey : statKey s.userId s = true := by simp [statKey]
  have hcount : (buildBreakdown now um ts).countP (statKey s.userId) ≤ 1 := by
    rw [countP_statKey_buildBreakdown]
    split <;> omega
  have hfind : (buildBreakdown now um ts).find? (statKey s.userId) = some s :=
    find?_eq_of_mem_of_countP_le_one (buildBreakdown now um ts) s hmem hkey hcount
  have h := lookupStats_foldl now um ts [] s.userId
  simp only [lookupStats, List.find?_nil] at h
  have hany : ts.any (fun t => t.user_id == s.userId) = true := by
    by_contra hn
    rw [if_neg (by simpa using hn)] at h
    rw [show (ts.foldl (insertTask now um) []) = buildBreakdown now um ts from rfl] at h
    rw [hfind] at h
    exact Option.noConfusion h
  rw [if_pos hany] at h
  rw [show (ts.foldl (insertTask now um) []) = buildBreakdown now um ts from rfl] at h
  rw [hfind] at h
  exact ⟨Option.some.inj h, hany⟩

theorem foldl_stepStats_fields (now : Nat) :
    ∀ (ts : List TaskRow) (s : UserStats),
      (ts.foldl (fun a t => stepStats now t a) s).userId = s.userId ∧
      (ts.foldl (fun a t => stepStats now t a) s).userName = s.userName ∧
      (ts.foldl (fun a t => stepStats now t a) s).userEmail = s.userEmail ∧
      (ts.foldl (fun a t => stepStats now t a) s).totalTasks = s.totalTasks + ts.length ∧
      (ts.foldl (fun a t => stepStats now t a) s).completed =
        s.completed + ts.countP (fun t => t.status == "completed") ∧
      (ts.foldl (fun a t => stepStats now t a) s).pending =
        s.pending + ts.countP (fun t => t.status != "completed") ∧
      (ts.foldl (fun a t => stepStats now t a) s).blocked =
        s.blocked + ts.countP (fun t => t.status != "completed" && decide (t.due_date < now)) := by
  intro ts
  induction ts with
  | nil => intro s; simp
  | cons t ts ih =>
    intro s
    rw [List.foldl_cons]
    rcases ih (stepStats now t s) with ⟨h1, h2, h3, h4, h5, h6, h7⟩
    refine ⟨?_, ?_, ?_, ?_, ?_, ?_, ?_⟩
    · rw [h1, stepStats_userId]
    · rw [h2]
      unfold stepStats
      split
      · rfl
      · split
        · rfl
        · rfl
    · rw [h3]
      unfold stepStats
      split
      · rfl
      · split
        · rfl
        · rfl
    · rw [h4]
      unfold stepStats
      split
      · simp [List.length_cons]
        omega
      · split
        · simp [List.length_cons]
          omega
        · simp [List.length_cons]
          omega
    · rw [h5]
      by_cases hc : t.status == "completed"
      · unfold stepStats
        simp [hc, List.countP_cons]
        omega
      · unfold stepStats
        simp only [hc, if_false, Bool.false_eq_true]
        split
        · simp [List.countP_cons, hc]
        · simp [List.countP_cons, hc]
    · rw [h6]
      by_cases hc : t.status == "completed"
      · have hne0 : (t.status != "completed") = false := by simp [bne, hc]
        unfold stepStats
        simp [hc, List.countP_cons, hne0]
      · unfold stepStats
        simp only [hc, if_false, Bool.false_eq_true]
        have hne : (t.status != "completed") = true := by simp [bne, hc]
        split
        · simp [List.countP_cons, hne]
          omega
        · simp [List.countP_cons, hne]
          omega
    · rw [h7]
      by_cases hc : t.status == "completed"
      · have hne0 : (t.status != "completed" && decide (t.due_date < now)) = false := by
          simp [bne, hc]
        unfold stepStats
        simp [hc, List.countP_cons, hne0]
      · have hne : (t.status != "completed") = true := by simp [bne, hc]
        unfold stepStats
        simp only [hc, if_false, Bool.false_eq_true]
        by_cases hd : t.due_date < now
        · simp [hd, List.countP_cons, hne]
          omega
        · simp [hd, List.countP_cons, hne]

theorem userAgg_fields (now : Nat) (um : String → Option (String × String))
    (u : String) (ts : List TaskRow) :
    (userAgg now um u ts).userId = u ∧
    (userAgg now um u ts).totalTasks = ts.countP (fun t => t.user_id == u) ∧
    (userAgg now um u ts).completed =
      ts.countP (fun t => t.user_id == u && t.status == "completed") ∧
    (userAgg now um u ts).pending =
      ts.countP (fun t => t.user_id == u && t.status != "completed") ∧
    (userAgg now um u ts).blocked =
      ts.countP (fun t => t.user_id == u && (t.status != "completed" && decide (t.due_date < now))) := by
  have h := foldl_stepStats_fields now (ts.filter (fun t => t.user_id == u)) (freshStats um u)
  rcases h with ⟨h1, _, _, h4, h5, h6, h7⟩
  unfold userAgg
  refine ⟨?_, ?_, ?_, ?_, ?_⟩
  · rw [h1, freshStats_userId]
  · rw [h4]
    simp [freshStats, ← List.countP_eq_length_filter]
  · rw [h5]
    simp [freshStats, List.countP_filter, Bool.and_comm]
  · rw [h6]
    simp [freshStats, List.countP_filter, Bool.and_comm]
  · rw [h7]
    simp [freshStats, List.countP_filter, Bool.and_comm]

theorem sumBy_append (F : UserStats → Nat) (l1 l2 : List UserStats) :
    sumBy F (l1 ++ l2) = sumBy F l1 + sumBy F l2 := by
  simp [sumBy]

theorem sumBy_map_update (F : UserStats → Nat) (now : Nat) (t : TaskRow)
    (k : String) (d : Nat) (hF : ∀ s, F (stepStats now t s) = F s + d) :
    ∀ acc : List UserStats,
      sumBy F (acc.map (fun s => if statKey k s then stepStats now t s else s)) =
        sumBy F acc + d * acc.countP (statKey k) := by
  intro acc
  induction acc with
  | nil => simp [sumBy]
  | cons a acc ih =>
    by_cases hk : statKey k a
    · simp only [List.map_cons, hk, if_true, sumBy, List.sum_cons, hF a]
      rw [show ((acc.map fun s => if statKey k s then stepStats now t s else s).map F).sum
          = sumBy F (acc.map fun s => if statKey k s then stepStats now t s else s) from rfl,
        ih, List.countP_cons_of_pos _ _ hk]
      simp [sumBy]
      ring
    · simp only [List.map_cons, hk, if_false, Bool.false_eq_true, sumBy, List.sum_cons]
      rw [show ((acc.map fun s => if statKey k s then stepStats now t s else s).map F).sum
          = sumBy F (acc.map fun s => if statKey k s then stepStats now t s else s) from rfl,
        ih, List.countP_cons_of_neg _ _ (by simpa using hk)]
      simp [sumBy]
      ring

theorem sumBy_insertTask (F : UserStats → Nat) (now : Nat)
    (um : String → Option (String × String)) (t : TaskRow) (d : Nat)
    (hF : ∀ s, F (stepStats now t s) = F s + d)
    (hFresh : ∀ v, F (freshStats um v) = 0)
    (acc : List UserStats)
    (hI : ∀ v, acc.countP (statKey v) = if acc.any (statKey v) then 1 else 0) :
    sumBy F (insertTask now um acc t) = sumBy F acc + d := by
  unfold insertTask
  by_cases hany : acc.any (statKey t.user_id)
  · simp only [hany, if_true]
    rw [sumBy_map_update F now t t.user_id d hF acc, hI t.user_id, hany]
    simp
  · simp only [hany, if_false, Bool.false_eq_true]
    rw [sumBy_append]
    simp [sumBy, hF, hFresh]

theorem sumBy_foldl (F : UserStats → Nat) (now : Nat)
    (um : String → Option (String × String)) (dF : TaskRow → Nat)
    (hF : ∀ t s, F (stepStats now t s) = F s + dF t)
    (hFresh : ∀ v, F (freshStats um v) = 0) :
    ∀ (ts : List TaskRow) (acc : List UserStats),
      (∀ v, acc.countP (statKey v) = if acc.any (statKey v) then 1 else 0) →
      sumBy F (ts.foldl (insertTask now um) acc) = sumBy F acc + (ts.map dF).sum := by
  intro ts
  induction ts with
  | nil => intro acc hI; simp
  | cons t ts ih =>
    intro acc hI
    rw [List.foldl_cons,
      ih (insertTask now um acc t) (countP_statKey_insertTask now um acc t hI),
      sumBy_insertTask F now um t (dF t) (hF t) hFresh acc hI]
    simp [List.map_cons, List.sum_cons]
    omega

theorem sumBy_buildBreakdown (F : UserStats → Nat) (now : Nat)
    (um : String → Option (String × String)) (dF : TaskRow → Nat)
    (hF : ∀ t s, F (stepStats now t s) = F s + dF t)
    (hFresh : ∀ v, F (freshStats um v) = 0) (ts : List TaskRow) :
    sumBy F (buildBreakdown now um ts) = (ts.map dF).sum := by
  have h := sumBy_foldl F now um dF hF hFresh ts [] (fun v => by simp)
  simpa [sumBy, buildBreakdown] using h

theorem stepStats_totalTasks (now : Nat) (t : TaskRow) (s : UserStats) :
    (stepStats now t s).totalTasks = s.totalTasks + 1 := by
  unfold stepStats
  split
  · rfl
  · split
    · rfl
    · rfl

theorem stepStats_completed (now : Nat) (t : TaskRow) (s : UserStats) :
    (stepStats now t s).completed =
      s.completed + (if t.status == "completed" then 1 else 0) := by
  unfold stepStats
  split
  · simp [*]
  · split
    · simp [*]
    · simp [*]

theorem stepStats_pending (now : Nat) (t : TaskRow) (s : UserStats) :
    (stepStats now t s).pending =
      s.pending + (if t.status != "completed" then 1 else 0) := by
  by_cases hc : t.status == "completed"
  · have hne : (t.status != "completed") = false := by simp [bne, hc]
    unfold stepStats
    simp [hc, hne]
  · have hne : (t.status != "completed") = true := by simp [bne, hc]
    unfold stepStats
    simp only [hc, if_false, Bool.false_eq_true, hne, if_true]
    split
    · rfl
    · rfl

theorem stepStats_blocked (now : Nat) (t : TaskRow) (s : UserStats) :
    (stepStats now t s).blocked =
      s.blocked + (if t.status != "completed" && decide (t.due_date < now) then 1 else 0) := by
  by_cases hc : t.status == "completed"
  · have hne : (t.status != "completed" && decide (t.due_date < now)) = false := by
      simp [bne, hc]
    unfold stepStats
    simp [hc, hne]
  · have hne : (t.status != "completed") = true := by simp [bne, hc]
    unfold stepStats
    by_cases hd : t.due_date < now
    · simp [hc, hne, hd]
    · simp [hc, hne, hd]

theorem sum_map_one (ts : List TaskRow) : (ts.map (fun _ => 1)).sum = ts.length := by
  induction ts with
  | nil => rfl
  | cons t ts ih =>
    simp [ih]
    omega

theorem countP_and_not_add (a p : α → Bool) (l : List α) :
    l.countP (fun x => a x && p x) + l.countP (fun x => a x && !p x) = l.countP a := by
  induction l with
  | nil => rfl
  | cons x l ih =>
    cases ha : a x
    · simp [List.countP_cons, ha]
      omega
    · cases hp : p x
      · simp [List.countP_cons, ha, hp]
        omega
      · simp [List.countP_cons, ha, hp]
        omega

theorem gdr_byUser (dateStr : String) (todayStart todayEnd now : Nat)
    (tasksTable : List TaskRow) (deletedTable : List DeletedRow)
    (um : String → Option (String × String)) :
    (generateDailyReport dateStr todayStart todayEnd now tasksTable deletedTable um).byUser =
      buildBreakdown now um
        (tasksTable.filter (fun t => inWindow todayStart todayEnd t.updated_at)) := rfl

theorem gdr_counts (dateStr : String) (todayStart todayEnd now : Nat)
    (tasksTable : List TaskRow) (deletedTable : List DeletedRow)
    (um : String → Option (String × String)) :
    (generateDailyReport dateStr todayStart todayEnd now tasksTable deletedTable um).totalTasks =
      tasksTable.countP (fun t => inWindow todayStart todayEnd t.updated_at) ∧
    (generateDailyReport dateStr todayStart todayEnd now tasksTable deletedTable um).completedTasks =
      tasksTable.countP (fun t => inWindow todayStart todayEnd t.updated_at &&
        t.status == "completed") ∧
    (generateDailyReport dateStr todayStart todayEnd now tasksTable deletedTable um).pendingTasks =
      tasksTable.countP (fun t => inWindow todayStart todayEnd t.updated_at &&
        t.status != "completed") ∧
    (generateDailyReport dateStr todayStart todayEnd now tasksTable deletedTable um).blockedTasks =
      tasksTable.countP (fun t => inWindow todayStart todayEnd t.updated_at &&
        (t.status != "completed" && decide (t.due_date < now))) ∧
    (generateDailyReport dateStr todayStart todayEnd now tasksTable deletedTable um).deletedTasks =
      deletedTable.countP (fun d => d.task_type == "regular" &&
        inWindow todayStart todayEnd d.deleted_at) := by
  refine ⟨?_, ?_, ?_, ?_, ?_⟩
  · simp [generateDailyReport, ← List.countP_eq_length_filter]
  · simp [generateDailyReport, ← List.countP_eq_length_filter, List.countP_filter,
      Bool.and_comm]
  · simp [generateDailyReport, ← List.countP_eq_length_filter, List.countP_filter,
      Bool.and_comm]
  · simp [generateDailyReport, ← List.countP_eq_length_filter, List.countP_filter,
      Bool.and_comm]
  · simp [generateDailyReport, ← List.countP_eq_length_filter]

/-- C2: generateDailyReport reports over exactly the tasks whose updated_at
lies in the current day window, running from 00:00:00.000 (todayStart) to
23:59:59.999 (todayStart + 86399999 ms), both inclusive: totalTasks counts
those tasks, completedTasks the ones with status completed, pendingTasks the
ones with any other status, blockedTasks the non-completed ones whose due date
is before the current time, and deletedTasks the deleted_tasks rows of regular
type whose deleted_at lies in the same window. -/
theorem generateDailyReport_window_spec (dateStr : String) (todayStart now : Nat)
    (tasksTable : List TaskRow) (deletedTable : List DeletedRow)
    (um : String → Option (String × String)) :
    (generateDailyReport dateStr todayStart (todayStart + 86399999) now tasksTable
        deletedTable um).totalTasks =
      tasksTable.countP (fun t => inWindow todayStart (todayStart + 86399999) t.updated_at) ∧
    (generateDailyReport dateStr todayStart (todayStart + 86399999) now tasksTable
        deletedTable um).completedTasks =
      tasksTable.countP (fun t => inWindow todayStart (todayStart + 86399999) t.updated_at &&
        t.status == "completed") ∧
    (generateDailyReport dateStr todayStart (todayStart + 86399999) now tasksTable
        deletedTable um).pendingTasks =
      tasksTable.countP (fun t => inWindow todayStart (todayStart + 86399999) t.updated_at &&
        t.status != "completed") ∧
    (generateDailyReport dateStr todayStart (todayStart + 86399999) now tasksTable
        deletedTable um).blockedTasks =
      tasksTable.countP (fun t => inWindow todayStart (todayStart + 86399999) t.updated_at &&
        (t.status != "completed" && decide (t.due_date < now))) ∧
    (generateDailyReport dateStr todayStart (todayStart + 86399999) now tasksTable
        deletedTable um).deletedTasks =
      deletedTable.countP (fun d => d.task_type == "regular" &&
        inWindow todayStart (todayStart + 86399999) d.deleted_at) :=
  gdr_counts dateStr todayStart (todayStart + 86399999) now tasksTable deletedTable um

/-- C3: the per-user breakdown of generateDailyReport has exactly one entry
for every user_id appearing among the tasks updated in the window and none for
any other user, and each entry tallies exactly that user's updated tasks:
totalTasks is their number, completed those with status completed, pending
those with any other status, and blocked the non-completed ones whose due date
is before the current time. -/
theorem generateDailyReport_byUser_spec (dateStr : String)
    (todayStart todayEnd now : Nat) (tasksTable : List TaskRow)
    (deletedTable : List DeletedRow) (um : String → Option (String × String)) :
    (∀ u : String,
      (generateDailyReport dateStr todayStart todayEnd now tasksTable deletedTable
          um).byUser.countP (statKey u) =
        if (tasksTable.filter (fun t => inWindow todayStart todayEnd t.updated_at)).any
            (fun t => t.user_id == u) then 1 else 0) ∧
    (∀ s ∈ (generateDailyReport dateStr todayStart todayEnd now tasksTable deletedTable
        um).byUser,
      s.totalTasks = (tasksTable.filter
          (fun t => inWindow todayStart todayEnd t.updated_at)).countP
          (fun t => t.user_id == s.userId) ∧
      s.completed = (tasksTable.filter
          (fun t => inWindow todayStart todayEnd t.updated_at)).countP
          (fun t => t.user_id == s.userId && t.status == "completed") ∧
      s.pending = (tasksTable.filter
          (fun t => inWindow todayStart todayEnd t.updated_at)).countP
          (fun t => t.user_id == s.userId && t.status != "completed") ∧
      s.blocked = (tasksTable.filter
          (fun t => inWindow todayStart todayEnd t.updated_at)).countP
          (fun t => t.user_id == s.userId &&
            (t.status != "completed" && decide (t.due_date < now)))) := by
  constructor
  · intro u
    rw [gdr_byUser, countP_statKey_buildBreakdown, any_buildBreakdown]
  · intro s hs
    rw [gdr_byUser] at hs
    rcases mem_buildBreakdown_eq_userAgg now um
      (tasksTable.filter (fun t => inWindow todayStart todayEnd t.updated_at)) s hs
      with ⟨hseq, _⟩
    rcases userAgg_fields now um s.userId
      (tasksTable.filter (fun t => inWindow todayStart todayEnd t.updated_at))
      with ⟨_, h4, h5, h6, h7⟩
    exact ⟨(congrArg UserStats.totalTasks hseq).trans h4,
      (congrArg UserStats.completed hseq).trans h5,
      (congrArg UserStats.pending hseq).trans h6,
      (congrArg UserStats.blocked hseq).trans h7⟩

theorem length_filter_not_add (p : α → Bool) (l : List α) :
    (l.filter p).length + (l.filter (fun x => !p x)).length = l.length := by
  rw [← List.countP_eq_length_filter, ← List.countP_eq_length_filter]
  exact countP_not_add p l

/-- C9: every report of generateDailyReport satisfies the algebraic relations
completedTasks + pendingTasks = totalTasks and blockedTasks ≤ pendingTasks;
each per-user entry satisfies completed + pending = totalTasks and
blocked ≤ pending; and the per-user columns sum to the overall figures. -/
theorem generateDailyReport_relations (dateStr : String)
    (todayStart todayEnd now : Nat) (tasksTable : List TaskRow)
    (deletedTable : List DeletedRow) (um : String → Option (String × String)) :
    (generateDailyReport dateStr todayStart todayEnd now tasksTable deletedTable
        um).completedTasks +
      (generateDailyReport dateStr todayStart todayEnd now tasksTable deletedTable
        um).pendingTasks =
      (generateDailyReport dateStr todayStart todayEnd now tasksTable deletedTable
        um).totalTasks ∧
    (generateDailyReport dateStr todayStart todayEnd now tasksTable deletedTable
        um).blockedTasks ≤
      (generateDailyReport dateStr todayStart todayEnd now tasksTable deletedTable
        um).pendingTasks ∧
    (∀ s ∈ (generateDailyReport dateStr todayStart todayEnd now tasksTable
        deletedTable um).byUser,
      s.completed + s.pending = s.totalTasks ∧ s.blocked ≤ s.pending) ∧
    sumBy UserStats.totalTasks (generateDailyReport dateStr todayStart todayEnd now
        tasksTable deletedTable um).byUser =
      (generateDailyReport dateStr todayStart todayEnd now tasksTable deletedTable
        um).totalTasks ∧
    sumBy UserStats.completed (generateDailyReport dateStr todayStart todayEnd now
        tasksTable deletedTable um).byUser =
      (generateDailyReport dateStr todayStart todayEnd now tasksTable deletedTable
        um).completedTasks ∧
    sumBy UserStats.pending (generateDailyReport dateStr todayStart todayEnd now
        tasksTable deletedTable um).byUser =
      (generateDailyReport dateStr todayStart todayEnd now tasksTable deletedTable
        um).pendingTasks ∧
    sumBy UserStats.blocked (generateDailyReport dateStr todayStart todayEnd now
        tasksTable deletedTable um).byUser =
      (generateDailyReport dateStr todayStart todayEnd now tasksTable deletedTable
        um).blockedTasks := by
  refine ⟨?_, ?_, ?_, ?_, ?_, ?_, ?_⟩
  · show ((tasksTable.filter (fun t => inWindow todayStart todayEnd t.updated_at)).filter
        (fun t => t.status == "completed")).length +
      ((tasksTable.filter (fun t => inWindow todayStart todayEnd t.updated_at)).filter
        (fun t => t.status != "completed")).length =
      (tasksTable.filter (fun t => inWindow todayStart todayEnd t.updated_at)).length
    simp only [bne]
    exact length_filter_not_add (fun t : TaskRow => t.status == "completed") _
  · show ((tasksTable.filter (fun t => inWindow todayStart todayEnd t.updated_at)).filter
        (fun t => t.status != "completed" && decide (t.due_date < now))).length ≤
      ((tasksTable.filter (fun t => inWindow todayStart todayEnd t.updated_at)).filter
        (fun t => t.status != "completed")).length
    rw [← List.countP_eq_length_filter, ← List.countP_eq_length_filter]
    apply List.countP_mono_left
    intro x _ hx
    exact ((Bool.and_eq_true _ _).mp hx).1
  · intro s hs
    rw [gdr_byUser] at hs
    rcases mem_buildBreakdown_eq_userAgg now um
      (tasksTable.filter (fun t => inWindow todayStart todayEnd t.updated_at)) s hs
      with ⟨hseq, _⟩
    rcases userAgg_fields now um s.userId
      (tasksTable.filter (fun t => inWindow todayStart todayEnd t.updated_at))
      with ⟨_, h4, h5, h6, h7⟩
    constructor
    · rw [(congrArg UserStats.completed hseq).trans h5,
        (congrArg UserStats.pending hseq).trans h6,
        (congrArg UserStats.totalTasks hseq).trans h4]
      have := countP_and_not_add (fun t : TaskRow => t.user_id == s.userId)
        (fun t => t.status == "completed")
        (tasksTable.filter (fun t => inWindow todayStart todayEnd t.updated_at))
      simpa [bne] using this
    · rw [(congrArg UserStats.blocked hseq).trans h7,
        (congrArg UserStats.pending hseq).trans h6]
      apply List.countP_mono_left
      intro x _ hx
      rcases (Bool.and_eq_true _ _).mp hx with ⟨hx1, hx2⟩
      rcases (Bool.and_eq_true _ _).mp hx2 with ⟨hx3, _⟩
      simp [hx1, hx3]
  · rw [gdr_byUser, sumBy_buildBreakdown UserStats.totalTasks now um (fun _ => 1)
      (fun t s => stepStats_totalTasks now t s) (fun v => rfl), sum_map_one]
    rfl
  · rw [gdr_byUser, sumBy_buildBreakdown UserStats.completed now um
      (fun t => if t.status == "completed" then 1 else 0)
      (fun t s => stepStats_completed now t s) (fun v => rfl), sum_map_ite_one]
    show _ = ((tasksTable.filter (fun t => inWindow todayStart todayEnd t.updated_at)).filter
        (fun t => t.status == "completed")).length
    rw [← List.countP_eq_length_filter]
  · rw [gdr_byUser, sumBy_buildBreakdown UserStats.pending now um
      (fun t => if t.status != "completed" then 1 else 0)
      (fun t s => stepStats_pending now t s) (fun v => rfl), sum_map_ite_one]
    show _ = ((tasksTable.filter (fun t => inWindow todayStart todayEnd t.updated_at)).filter
        (fun t => t.status != "completed")).length
    rw [← List.countP_eq_length_filter]
  · rw [gdr_byUser, sumBy_buildBreakdown UserStats.blocked now um
      (fun t => if t.status != "completed" && decide (t.due_date < now) then 1 else 0)
      (fun t s => stepStats_blocked now t s) (fun v => rfl), sum_map_ite_one]
    show _ = ((tasksTable.filter (fun t => inWindow todayStart todayEnd t.updated_at)).filter
        (fun t => t.status != "completed" && decide (t.due_date < now))).length
    rw [← List.countP_eq_length_filter]

/-- C5: sendDailyReportToAllUsers builds exactly one notification row (type
report, unread, dated title, formatted digest as message) for every active
member, active project manager and active admin, and issues them in
consecutive batches of at most 100 whose concatenation covers every recipient
exactly once, none repeated or skipped. -/
theorem sendDailyReportToAllUsers_spec (report : DailyPerformanceReport)
    (members pms admins : List UserRow)
    (hN : ((activeUsers members pms admins).map UserRow.id).Nodup) :
    (sendDailyReportToAllUsers report members pms admins).flatten =
      (activeUsers members pms admins).map
        (mkNotification report.date (formatReportMessage report)) ∧
    (∀ b ∈ sendDailyReportToAllUsers report members pms admins, b.length ≤ 100) ∧
    (∀ n ∈ (sendDailyReportToAllUsers report members pms admins).flatten,
      n.ntype = "report" ∧ n.is_read = false ∧
      n.title = "📊 Daily Performance Report - " ++ report.date ∧
      n.message = formatReportMessage report) ∧
    (∀ u : String,
      (sendDailyReportToAllUsers report members pms admins).flatten.countP
          (fun n => n.user_id == u) =
        if u ∈ (activeUsers members pms admins).map UserRow.id then 1 else 0) := by
  have hflat : (sendDailyReportToAllUsers report members pms admins).flatten =
      (activeUsers members pms admins).map
        (mkNotification report.date (formatReportMessage report)) :=
    batches100_flatten _
  refine ⟨hflat, ?_, ?_, ?_⟩
  · intro b hb
    exact batches100_len_le _ b hb
  · intro n hn
    rw [hflat] at hn
    rcases List.mem_map.mp hn with ⟨u, _, hn2⟩
    subst hn2
    exact ⟨rfl, rfl, rfl, rfl⟩
  · intro u
    rw [hflat, List.countP_map]
    have hcomp : ((fun n : NotificationRow => n.user_id == u) ∘
        mkNotification report.date (formatReportMessage report)) =
        fun x : UserRow => x.id == u := by
      funext x
      rfl
    rw [hcomp,
      show (fun x : UserRow => x.id == u) = ((fun i : String => i == u) ∘ UserRow.id)
        from rfl,
      (List.countP_map (fun i : String => i == u) UserRow.id
        (activeUsers members pms admins)).symm]
    by_cases hm : u ∈ (activeUsers members pms admins).map UserRow.id
    · rw [if_pos hm, ← List.count_eq_countP]
      exact List.count_eq_one_of_mem hN hm
    · rw [if_neg hm, ← List.count_eq_countP]
      exact List.count_eq_zero_of_not_mem hm

/-- Witness for C5 at concrete tables: the flattened batches are exactly the
mapped recipient list. -/
theorem sendDailyReportToAllUsers_spec_witness :
    (sendDailyReportToAllUsers exReport exMembers exPms exAdmins).flatten =
      (activeUsers exMembers exPms exAdmins).map
        (mkNotification exReport.date (formatReportMessage exReport)) :=
  (sendDailyReportToAllUsers_spec exReport exMembers exPms exAdmins (by decide)).1

/-- C6: the digest of formatReportMessage starts with the date line and the
five overall metric lines in order (the nine header lines), and exactly when
the per-user breakdown is non-empty it appends a Top Performers Today section
listing at most five users in non-increasing order of completed count, each
line rendered by perfLine as rank, name, completed and total. -/
theorem formatReportMessage_spec (r : DailyPerformanceReport) :
    formatReportMessage r = String.intercalate "\n" (formatReportLines r) ∧
    (formatReportLines r).take 9 = headerLines r ∧
    (r.byUser = [] → formatReportLines r = headerLines r) ∧
    (¬ r.byUser = [] → ∃ us : List UserStats,
      us.length = min 5 r.byUser.length ∧
      us.length ≤ 5 ∧
      (∀ s ∈ us, s ∈ r.byUser) ∧
      List.Pairwise completedGe us ∧
      formatReportLines r = headerLines r ++
        ("🏆 Top Performers Today:" :: us.enum.map (fun p => perfLine p.1 p.2))) := by
  refine ⟨rfl, ?_, ?_, ?_⟩
  · unfold formatReportLines
    split
    · rw [show (9 : Nat) = (headerLines r).length from rfl, List.take_left]
    · rfl
  · intro hbu
    unfold formatReportLines
    simp [hbu]
  · intro hbu
    refine ⟨(r.byUser.insertionSort completedGe).take 5, ?_, ?_, ?_, ?_, ?_⟩
    · rw [List.length_take, List.length_insertionSort]
    · rw [List.length_take]
      exact min_le_left _ _
    · intro s hsmem
      exact (List.perm_insertionSort completedGe r.byUser).mem_iff.mp
        (List.mem_of_mem_take hsmem)
    · exact List.Pairwise.sublist (List.take_sublist 5 _)
        (List.sorted_insertionSort completedGe r.byUser)
    · unfold formatReportLines
      have hpos : r.byUser.length > 0 := List.length_pos.mpr hbu
      simp only [hpos, if_true]

/-- Witness for C6 at a concrete report with a non-empty breakdown: the first
nine digest lines are the header. -/
theorem formatReportMessage_spec_witness :
    (formatReportLines exReport).take 9 = headerLines exReport :=
  (formatReportMessage_spec exReport).2.1

/-- C7: sendTaskWebhook is a total function of the retrieved setting and the
fetch outcome (the try/catch maps every thrown exception to false), and it
resolves to true exactly when a setting is present and enabled, a non-empty
URL is configured, and the POST to that URL returns an ok response; in every
other case (disabled settings, missing URL, non-ok response, exception) it
resolves to false. -/
theorem sendTaskWebhook_spec (s : Option WebhookSetting)
    (fetch : String → FetchResult) :
    sendTaskWebhook s fetch = true ↔
      ∃ ws, s = some ws ∧ ws.setting_value.enabled = true ∧
        ¬ ws.setting_value.url = "" ∧
        ∃ resp, fetch ws.setting_value.url = FetchResult.success resp ∧
          resp.ok = true := by
  cases s with
  | none => simp [sendTaskWebhook]
  | some ws =>
    by_cases he : ws.setting_value.enabled
    · by_cases hu : ws.setting_value.url = ""
      · simp [sendTaskWebhook, he, hu]
      · cases hf : fetch ws.setting_value.url with
        | success resp =>
          simp [sendTaskWebhook, he, hu, hf]
        | failure =>
          simp [sendTaskWebhook, he, hu, hf]
    · simp [sendTaskWebhook, he]

/-- C10: getWebhookSetting never resolves to null: on a missing row, a query
error, or a thrown exception it returns the default setting, which is enabled
and points to the hard-coded n8nautomation.site URL, so in all those cases
sendTaskWebhook treats webhooks as enabled and attempts delivery to that
default URL (its result is exactly the ok flag of the POST there). -/
theorem getWebhookSetting_spec (q : SettingsQueryResult) (nowIso : String)
    (fetch : String → FetchResult) :
    ¬ getWebhookSetting q nowIso = none ∧
    ((q = SettingsQueryResult.err ∨ q = SettingsQueryResult.ok none ∨
        q = SettingsQueryResult.exn) →
      getWebhookSetting q nowIso = some (defaultWebhookSetting nowIso) ∧
      (defaultWebhookSetting nowIso).setting_value.enabled = true ∧
      (defaultWebhookSetting nowIso).setting_value.url = tsDefaultUrl ∧
      sendTaskWebhook (getWebhookSetting q nowIso) fetch =
        (match fetch tsDefaultUrl with
         | FetchResult.success resp => resp.ok
         | FetchResult.failure => false)) := by
  constructor
  · cases q with
    | ok d => cases d <;> simp [getWebhookSetting]
    | err => simp [getWebhookSetting]
    | exn => simp [getWebhookSetting]
  · intro hq
    have hg : getWebhookSetting q nowIso = some (defaultWebhookSetting nowIso) := by
      rcases hq with h | h | h
      · rw [h]
        rfl
      · rw [h]
        rfl
      · rw [h]
        rfl
    refine ⟨hg, rfl, rfl, ?_⟩
    rw [hg]
    show sendTaskWebhook (some (defaultWebhookSetting nowIso)) fetch = _
    unfold sendTaskWebhook defaultWebhookSetting
    simp only []
    rw [if_neg (by simp), if_neg (by simp [tsDefaultUrl])]

/-- Witness for C10 at a concrete erroring query and a failing POST. -/
theorem getWebhookSetting_spec_witness :
    getWebhookSetting SettingsQueryResult.err "2025-01-18T00:00:00.000Z" =
      some (defaultWebhookSetting "2025-01-18T00:00:00.000Z") ∧
    (defaultWebhookSetting "2025-01-18T00:00:00.000Z").setting_value.enabled = true ∧
    (defaultWebhookSetting "2025-01-18T00:00:00.000Z").setting_value.url = tsDefaultUrl ∧
    sendTaskWebhook (getWebhookSetting SettingsQueryResult.err
        "2025-01-18T00:00:00.000Z") (fun _ => FetchResult.failure) = false :=
  (getWebhookSetting_spec SettingsQueryResult.err "2025-01-18T00:00:00.000Z"
    (fun _ => FetchResult.failure)).2 (Or.inl rfl)

/-- C8: send_daily_performance_report inserts one report notification with the
same message for every active member, project manager and admin; it attempts
the webhook POST exactly when the webhook is effectively enabled, where a
missing or empty URL is substituted by the hard-coded default URL together
with enabled true; and a webhook failure is caught inside the function, so the
run is independent of the POST outcome: the inserted notifications are kept
and the function completes normally. -/
theorem send_daily_performance_report_spec (reportDate : String)
    (dayStart now : Nat) (tasksTable : List TaskRow)
    (deletedTable : List DeletedRow) (members pms admins : List UserRow)
    (settingsRow : Option SqlWebhookSettingsRow) (http http2 : String → FetchResult) :
    (send_daily_performance_report reportDate dayStart now tasksTable deletedTable
        members pms admins settingsRow http).notifications =
      (activeUsers members pms admins).map
        (mkNotification reportDate
          (sqlReportMessage reportDate
            (sqlReportMetrics dayStart now tasksTable deletedTable))) ∧
    (send_daily_performance_report reportDate dayStart now tasksTable deletedTable
        members pms admins settingsRow http).completedNormally = true ∧
    ((send_daily_performance_report reportDate dayStart now tasksTable deletedTable
        members pms admins settingsRow http).webhookAttempted = true ↔
      (settingsRow = none ∨ ∃ row, settingsRow = some row ∧
        (row.url = none ∨ row.url = some "" ∨ row.is_enabled = some true))) ∧
    ((settingsRow = none ∨ ∃ row, settingsRow = some row ∧
        (row.url = none ∨ row.url = some "")) →
      (send_daily_performance_report reportDate dayStart now tasksTable deletedTable
        members pms admins settingsRow http).webhookAttempted = true ∧
      (send_daily_performance_report reportDate dayStart now tasksTable deletedTable
        members pms admins settingsRow http).webhookUrlUsed = some sqlDefaultUrl) ∧
    send_daily_performance_report reportDate dayStart now tasksTable deletedTable
        members pms admins settingsRow http =
      send_daily_performance_report reportDate dayStart now tasksTable deletedTable
        members pms admins settingsRow http2 := by
  have key : ∀ h : String → FetchResult,
      send_daily_performance_report reportDate dayStart now tasksTable deletedTable
        members pms admins settingsRow h =
      { notifications := (activeUsers members pms admins).map
          (mkNotification reportDate
            (sqlReportMessage reportDate
              (sqlReportMetrics dayStart now tasksTable deletedTable)))
        webhookAttempted := decide (settingsRow = none ∨ ∃ row, settingsRow = some row ∧
          (row.url = none ∨ row.url = some "" ∨ row.is_enabled = some true))
        webhookUrlUsed :=
          if settingsRow = none ∨ ∃ row, settingsRow = some row ∧
              (row.url = none ∨ row.url = some "") then some sqlDefaultUrl
          else if ∃ row, settingsRow = some row ∧ row.is_enabled = some true then
            match settingsRow with
            | none => none
            | some row => some (row.url.getD "")
          else none
        completedNormally := true } := by
    intro h
    have hmk : (fun u : UserRow =>
        ({ user_id := u.id,
           title := "📊 Daily Performance Report - " ++ reportDate,
           message := sqlReportMessage reportDate
             (sqlReportMetrics dayStart now tasksTable deletedTable),
           ntype := "report", is_read := false } : NotificationRow)) =
        mkNotification reportDate
          (sqlReportMessage reportDate
            (sqlReportMetrics dayStart now tasksTable deletedTable)) := rfl
    cases settingsRow with
    | none =>
      have hc1 : ((none : Option SqlWebhookSettingsRow) = none ∨
          ∃ row, (none : Option SqlWebhookSettingsRow) = some row ∧
            (row.url = none ∨ row.url = some "" ∨ row.is_enabled = some true)) :=
        Or.inl rfl
      have hc2 : ((none : Option SqlWebhookSettingsRow) = none ∨
          ∃ row, (none : Option SqlWebhookSettingsRow) = some row ∧
            (row.url = none ∨ row.url = some "")) := Or.inl rfl
      cases hh : h sqlDefaultUrl with
      | success resp =>
        simp [send_daily_performance_report, activeUsers, hmk, hh, hc1, hc2]
      | failure =>
        simp [send_daily_performance_report, activeUsers, hmk, hh, hc1, hc2]
    | some row =>
      by_cases hsub : row.url = none ∨ row.url = some ""
      · have hc1 : ((some row : Option SqlWebhookSettingsRow) = none ∨
            ∃ r, (some row : Option SqlWebhookSettingsRow) = some r ∧
              (r.url = none ∨ r.url = some "" ∨ r.is_enabled = some true)) :=
          Or.inr ⟨row, rfl, by tauto⟩
        have hc2 : ((some row : Option SqlWebhookSettingsRow) = none ∨
            ∃ r, (some row : Option SqlWebhookSettingsRow) = some r ∧
              (r.url = none ∨ r.url = some "")) := Or.inr ⟨row, rfl, hsub⟩
        cases hh : h sqlDefaultUrl with
        | success resp =>
          simp [send_daily_performance_report, activeUsers, hmk, hh,
            hsub, hc1, hc2]
          tauto
        | failure =>
          simp [send_daily_performance_report, activeUsers, hmk, hh,
            hsub, hc1, hc2]
          tauto
      · by_cases hen : row.is_enabled = some true
        · have hc1 : ((some row : Option SqlWebhookSettingsRow) = none ∨
              ∃ r, (some row : Option SqlWebhookSettingsRow) = some r ∧
                (r.url = none ∨ r.url = some "" ∨ r.is_enabled = some true)) :=
            Or.inr ⟨row, rfl, by tauto⟩
          have hc2 : ¬ ((some row : Option SqlWebhookSettingsRow) = none ∨
              ∃ r, (some row : Option SqlWebhookSettingsRow) = some r ∧
                (r.url = none ∨ r.url = some "")) := by
            rintro (hc | ⟨r, hr, hrr⟩)
            · exact Option.noConfusion hc
            · exact hsub (by rwa [← Option.some.inj hr] at hrr)
          have hc3 : (∃ r, (some row : Option SqlWebhookSettingsRow) = some r ∧
              r.is_enabled = some true) := ⟨row, rfl, hen⟩
          cases hh : h (row.url.getD "") with
          | success resp =>
            simp [send_daily_performance_report, activeUsers, hmk, hh,
              hsub, hen, hc1, hc2, hc3]
          | failure =>
            simp [send_daily_performance_report, activeUsers, hmk, hh,
              hsub, hen, hc1, hc2, hc3]
        · have hc1 : ¬ ((some row : Option SqlWebhookSettingsRow) = none ∨
              ∃ r, (some row : Option SqlWebhookSettingsRow) = some r ∧
                (r.url = none ∨ r.url = some "" ∨ r.is_enabled = some true)) := by
            rintro (hc | ⟨r, hr, hrr⟩)
            · exact Option.noConfusion hc
            · rw [← Option.some.inj hr] at hrr
              rcases hrr with h1 | h2 | h3
              · exact hsub (Or.inl h1)
              · exact hsub (Or.inr h2)
              · exact hen h3
          have hc2 : ¬ ((some row : Option SqlWebhookSettingsRow) = none ∨
              ∃ r, (some row : Option SqlWebhookSettingsRow) = some r ∧
                (r.url = none ∨ r.url = some "")) := by
            rintro (hc | ⟨r, hr, hrr⟩)
            · exact Option.noConfusion hc
            · exact hsub (by rwa [← Option.some.inj hr] at hrr)
          simp [send_daily_performance_report, activeUsers, hmk,
            hsub, hen, hc1, hc2]
  refine ⟨?_, ?_, ?_, ?_, ?_⟩
  · rw [key http]
  · rw [key http]
  · rw [key http]
    simp
  · intro hc
    rw [key http]
    constructor
    · simp only [decide_eq_true_eq]
      rcases hc with h | ⟨row, hrow, hu⟩
      · exact Or.inl h
      · exact Or.inr ⟨row, hrow, by tauto⟩
    · simp [hc]
  · rw [key http, key http2]

/-- Witness for C8: with a settings row carrying no URL and is_enabled false,
the substitution still attempts the POST at the hard-coded default URL. -/
theorem send_daily_performance_report_spec_witness :
    (send_daily_performance_report "2025-01-18" 0 0 [] [] exMembers exPms exAdmins
        (some { url := none, is_enabled := some false })
        (fun _ => FetchResult.failure)).webhookAttempted = true ∧
    (send_daily_performance_report "2025-01-18" 0 0 [] [] exMembers exPms exAdmins
        (some { url := none, is_enabled := some false })
        (fun _ => FetchResult.failure)).webhookUrlUsed = some sqlDefaultUrl :=
  (send_daily_performance_report_spec "2025-01-18" 0 0 [] [] exMembers exPms exAdmins
      (some { url := none, is_enabled := some false })
      (fun _ => FetchResult.failure) (fun _ => FetchResult.failure)).2.2.2.1
    (Or.inr ⟨{ url := none, is_enabled := some false }, rfl, Or.inl rfl⟩)

theorem inWindow_end_shift (lo x : Nat)
    (h : ¬ (lo + 86399000 < x ∧ x ≤ lo + 86399999)) :
    inWindow lo (lo + 86399999) x = inWindow lo (lo + 86400000 - 1000) x := by
  by_cases h1 : x ≤ lo + 86400000 - 1000
  · have h2 : x ≤ lo + 86399999 := by omega
    simp [inWindow, h1, h2]
    omega
  · have h2 : ¬ x ≤ lo + 86399999 := by omega
    simp [inWindow, h1, h2]
    omega

/-- Counterexample for C4: on a task updated in the last 999 ms of the day
(updated_at = 86399500 with the day starting at 0) the TypeScript
generateDailyReport counts it (its window ends at 23:59:59.999) while the SQL
send_daily_performance_report does not (its window ends at 23:59:59.000), so
the two totals differ on the same data at the same instant. -/
theorem tsSqlReport_counterexample :
    (generateDailyReport "2025-01-18" 0 (0 + 86399999) 0 [exLateTask] []
        (fun _ => none)).totalTasks ≠
      (sqlReportMetrics 0 0 [exLateTask] []).total := by decide

/-- C4 as amended: when no task's updated_at and no deleted row's deleted_at
falls strictly inside the last 999 ms of the day (the gap between the SQL
window end 23:59:59.000 and the TypeScript window end 23:59:59.999), the two
implementations compute equal values for all five report metrics over the
same data at the same instant. -/
theorem tsSqlReport_agree (dateStr : String) (dayStart now : Nat)
    (tasksTable : List TaskRow) (deletedTable : List DeletedRow)
    (um : String → Option (String × String))
    (hT : ∀ t ∈ tasksTable,
      ¬ (dayStart + 86399000 < t.updated_at ∧ t.updated_at ≤ dayStart + 86399999))
    (hD : ∀ d ∈ deletedTable,
      ¬ (dayStart + 86399000 < d.deleted_at ∧ d.deleted_at ≤ dayStart + 86399999)) :
    (generateDailyReport dateStr dayStart (dayStart + 86399999) now tasksTable
        deletedTable um).totalTasks =
      (sqlReportMetrics dayStart now tasksTable deletedTable).total ∧
    (generateDailyReport dateStr dayStart (dayStart + 86399999) now tasksTable
        deletedTable um).completedTasks =
      (sqlReportMetrics dayStart now tasksTable deletedTable).completed ∧
    (generateDailyReport dateStr dayStart (dayStart + 86399999) now tasksTable
        deletedTable um).pendingTasks =
      (sqlReportMetrics dayStart now tasksTable deletedTable).pending ∧
    (generateDailyReport dateStr dayStart (dayStart + 86399999) now tasksTable
        deletedTable um).blockedTasks =
      (sqlReportMetrics dayStart now tasksTable deletedTable).blocked ∧
    (generateDailyReport dateStr dayStart (dayStart + 86399999) now tasksTable
        deletedTable um).deletedTasks =
      (sqlReportMetrics dayStart now tasksTable deletedTable).deleted := by
  rcases gdr_counts dateStr dayStart (dayStart + 86399999) now tasksTable
    deletedTable um with ⟨h1, h2, h3, h4, h5⟩
  have hshift : ∀ t ∈ tasksTable,
      inWindow dayStart (dayStart + 86399999) t.updated_at =
        inWindow dayStart (dayStart + 86400000 - 1000) t.updated_at :=
    fun t ht => inWindow_end_shift dayStart t.updated_at (hT t ht)
  have hshiftD : ∀ d ∈ deletedTable,
      inWindow dayStart (dayStart + 86399999) d.deleted_at =
        inWindow dayStart (dayStart + 86400000 - 1000) d.deleted_at :=
    fun d hd => inWindow_end_shift dayStart d.deleted_at (hD d hd)
  refine ⟨?_, ?_, ?_, ?_, ?_⟩
  · rw [h1]
    exact List.countP_congr (fun t ht => by rw [hshift t ht])
  · rw [h2]
    exact List.countP_congr (fun t ht => by rw [hshift t ht])
  · rw [h3]
    exact List.countP_congr (fun t ht => by rw [hshift t ht])
  · rw [h4]
    refine List.countP_congr (fun t ht => ?_)
    rw [hshift t ht]
    simp [Bool.and_assoc]
  · rw [h5]
    refine List.countP_congr (fun d hd => ?_)
    rw [hshiftD d hd]
    simp [Bool.and_comm]

/-- Witness for C4 at concrete data with no timestamp in the 999 ms gap: the
two totals agree. -/
theorem tsSqlReport_agree_witness :
    (generateDailyReport "2025-01-18" 0 (0 + 86399999) 2000
        [{ user_id := "u", status := "completed", due_date := 0, updated_at := 1000 }]
        [{ task_type := "regular", deleted_at := 500 }] (fun _ => none)).totalTasks =
      (sqlReportMetrics 0 2000
        [{ user_id := "u", status := "completed", due_date := 0, updated_at := 1000 }]
        [{ task_type := "regular", deleted_at := 500 }]).total :=
  (tsSqlReport_agree "2025-01-18" 0 2000
    [{ user_id := "u", status := "completed", due_date := 0, updated_at := 1000 }]
    [{ task_type := "regular", deleted_at := 500 }] (fun _ => none)
    (by decide) (by decide)).1

theorem handlerPred_implies (f : DailyTaskFilters) (user : AuthUser)
    (x : DailyTaskRow) (hx : handlerPred f user x = true) :
    realtimePreservedPred f user x = true := by
  simp only [handlerPred, realtimePreservedPred, Bool.and_eq_true,
    Bool.or_eq_true] at hx ⊢
  tauto

/-- Counterexample for C1: with only the project filter set (project p1) and
an admin user, the realtime INSERT handler adds a freshly created task of
project p2 to the empty (trivially filter-consistent) local state even though
the task fails the fetch predicate: the handler never re-checks the project
filter. -/
theorem useDailyTasks_realtime_counterexample :
    insertHandlerDT exFilters exAuthAdmin [] exOtherProjectTask =
      [exOtherProjectTask] ∧
    fetchPred exFilters exAuthAdmin exOtherProjectTask = false := by decide

/-- C1 as amended: after any realtime INSERT, UPDATE or DELETE event, every
task in the local state satisfies the fetch predicate with the project filter
dropped (status, member, date, priority and search filters, and own-tasks-only
for a user who is neither admin nor project manager); the initial fetch
guarantees this weaker predicate as well, so it is an invariant of the
reconciliation. -/
theorem useDailyTasks_realtime_amended (f : DailyTaskFilters) (user : AuthUser)
    (prev : List DailyTaskRow) (nt ut : DailyTaskRow) (did : String)
    (h : ∀ x ∈ prev, realtimePreservedPred f user x = true) :
    (∀ x : DailyTaskRow, fetchPred f user x = true →
      realtimePreservedPred f user x = true) ∧
    (∀ x ∈ insertHandlerDT f user prev nt, realtimePreservedPred f user x = true) ∧
    (∀ x ∈ updateHandlerDT f user prev ut, realtimePreservedPred f user x = true) ∧
    (∀ x ∈ deleteHandlerDT prev did, realtimePreservedPred f user x = true) := by
  refine ⟨?_, ?_, ?_, ?_⟩
  · intro x hx
    simp only [fetchPred, realtimePreservedPred, Bool.and_eq_true,
      Bool.or_eq_true] at hx ⊢
    tauto
  · intro x hx
    unfold insertHandlerDT at hx
    split at hx
    · exact h x hx
    · split at hx
      · rename_i hp
        rcases List.mem_cons.mp hx with heq | hx2
        · rw [heq]
          exact handlerPred_implies f user nt hp
        · exact h x hx2
      · exact h x hx
  · intro x hx
    unfold updateHandlerDT at hx
    split at hx
    · exact h x hx
    · rename_i i hfind
      split at hx
      · rename_i hp
        rcases List.mem_or_eq_of_mem_set hx with hx2 | heq
        · exact h x hx2
        · rw [heq]
          exact handlerPred_implies f user ut hp
      · exact h x (List.mem_filter.mp hx).1
  · intro x hx
    exact h x (List.mem_filter.mp hx).1

/-- Witness for C1 as amended: the task added by the INSERT handler satisfies
the preserved predicate at concrete inputs. -/
theorem useDailyTasks_realtime_amended_witness :
    realtimePreservedPred exFilters exAuthAdmin exOtherProjectTask = true :=
  (useDailyTasks_realtime_amended exFilters exAuthAdmin [] exOtherProjectTask
      exOtherProjectTask "t9" (by decide)).2.1 exOtherProjectTask (by decide)

/-- Witness for C3 at a concrete single-task table: user u has exactly one
breakdown entry. -/
theorem generateDailyReport_byUser_spec_witness :
    (generateDailyReport "2025-01-18" 0 86399999 2000
        [{ user_id := "u", status := "completed", due_date := 0, updated_at := 1000 }]
        [] (fun _ => none)).byUser.countP (statKey "u") = 1 := by
  have h := (generateDailyReport_byUser_spec "2025-01-18" 0 86399999 2000
    [{ user_id := "u", status := "completed", due_date := 0, updated_at := 1000 }]
    [] (fun _ => none)).1 "u"
  rw [h]
  decide

/-- Witness for C7: an enabled setting with a non-empty URL and an ok response
makes sendTaskWebhook resolve to true. -/
theorem sendTaskWebhook_spec_witness :
    sendTaskWebhook
      (some { id := "1", setting_key := "task_webhook_enabled",
              setting_value := { enabled := true, url := "https://example.com/hook" },
              descr := "Task webhook notifications",
              created_at := "2025-01-18T00:00:00.000Z",
              updated_at := "2025-01-18T00:00:00.000Z" })
      (fun _ => FetchResult.success { status := 200, ok := true }) = true :=
  (sendTaskWebhook_spec _ _).mpr
    ⟨_, rfl, rfl, by decide, { status := 200, ok := true }, rfl, rfl⟩

/-- Witness for C9 at a concrete table: completed plus pending equals total. -/
theorem generateDailyReport_relations_witness :
    (generateDailyReport "2025-01-18" 0 86399999 2000
        [{ user_id := "u", status := "completed", due_date := 0, updated_at := 1000 },
         { user_id := "v", status := "pending", due_date := 0, updated_at := 2000 }]
        [] (fun _ => none)).completedTasks +
      (generateDailyReport "2025-01-18" 0 86399999 2000
        [{ user_id := "u", status := "completed", due_date := 0, updated_at := 1000 },
         { user_id := "v", status := "pending", due_date := 0, updated_at := 2000 }]
        [] (fun _ => none)).pendingTasks =
      (generateDailyReport "2025-01-18" 0 86399999 2000
        [{ user_id := "u", status := "completed", due_date := 0, updated_at := 1000 },
         { user_id := "v", status := "pending", due_date := 0, updated_at := 2000 }]
        [] (fun _ => none)).totalTasks :=
  (generateDailyReport_relations "2025-01-18" 0 86399999 2000
    [{ user_id := "u", status := "completed", due_date := 0, updated_at := 1000 },
     { user_id := "v", status := "pending", due_date := 0, updated_at := 2000 }]
    [] (fun _ => none)).1
